import Mathlib

/-! golang-url-shortener: the redirect tables and the handler chain

A shallow embedding of `main.go`.  Go's `map[string]string` is an association
list without repeated keys, and a handler is a function on the state of the
response it writes to.  The part of net/http that the handlers reach is
embedded with them: the response writer of the server, `http.Redirect`, and
the `ServeMux` with its canonical paths.  The decoders (`json.Unmarshal`,
`yaml.Unmarshal`), `url.Parse` and the file system are parameters.
-/

namespace UrlShortener

/-! ## Go maps with string keys and string values -/

/-- Go `map[string]string`: the entries, every key at most once when built
with `GoMap.set` from `GoMap.make`. -/
abbrev GoMap := List (String × String)

/-- Go `make(map[string]string)`. -/
def GoMap.make : GoMap := []

/-- Go `v, ok := m[k]`: `some v` when `ok`, else `none`. -/
def GoMap.get? : GoMap → String → Option String
  | [], _ => none
  | (k', v) :: rest, k => if k' = k then some v else GoMap.get? rest k

/-- Go `m[k] = v`: overwrite the entry of `k`, or add one. -/
def GoMap.set : GoMap → String → String → GoMap
  | [], k, v => [(k, v)]
  | (k', v') :: rest, k, v =>
    if k' = k then (k, v) :: rest else (k', v') :: GoMap.set rest k v

/-- The keys of the map. -/
def GoMap.keys (m : GoMap) : List String := m.map Prod.fst

/-- Go `len(m)`. -/
def GoMap.len (m : GoMap) : Nat := m.length

/-! ## The two record types -/

/-- Go `type yamlRedirectURL struct`. -/
structure yamlRedirectURL where
  Path : String
  URL : String
  deriving DecidableEq, Repr

/-- Go `type jsonRedirectURL struct`. -/
structure jsonRedirectURL where
  Path : String
  URL : String
  deriving DecidableEq, Repr

/-! ## The table builders -/

/-- Go `mapJsonUrls`: a fresh map, then `urlMap[url.Path] = url.URL` for each
record in slice order. -/
def mapJsonUrls (urlRedirects : List jsonRedirectURL) : GoMap :=
  urlRedirects.foldl (fun urlMap url => GoMap.set urlMap url.Path url.URL) GoMap.make

/-- Go `mapYamlUrls`: a fresh map, then `urlMap[ur.Path] = ur.URL` for each
record in slice order. -/
def mapYamlUrls (yamlURLRedirectSlice : List yamlRedirectURL) : GoMap :=
  yamlURLRedirectSlice.foldl (fun urlMap ur => GoMap.set urlMap ur.Path ur.URL) GoMap.make

/-! ## Strings and paths: the helpers of `strings` and `path` that net/http uses -/

/-- Go `strings.HasPrefix(s, pre)`. -/
def hasPrefix (s pre : String) : Bool := pre.data.isPrefixOf s.data

/-- Go `strings.HasSuffix(s, suf)`. -/
def hasSuffix (s suf : String) : Bool := suf.data.isSuffixOf s.data

/-- The elements of a path: the pieces between its slashes. -/
def splitSlash : List Char → List (List Char)
  | [] => [[]]
  | c :: cs =>
    if c = '/' then [] :: splitSlash cs
    else
      match splitSlash cs with
      | [] => [[c]]
      | seg :: rest => (c :: seg) :: rest

/-- The elements of a path put together again, a slash between two. -/
def joinSlash : List (List Char) → List Char
  | [] => []
  | [e] => e
  | e :: es => e ++ '/' :: joinSlash es

/-- One element in Go `path.Clean`, on the elements kept so far (the last one
first): an empty element and `.` are dropped, `..` removes the element before
it, or stays when the path is not rooted and nothing is left to remove. -/
def cleanStep (rooted : Bool) (kept : List (List Char)) (elem : List Char) :
    List (List Char) :=
  if elem = [] then kept
  else if elem = ['.'] then kept
  else if elem = ['.', '.'] then
    match kept with
    | [] => if rooted then [] else [elem]
    | top :: rest =>
      if top = ['.', '.'] then (if rooted then kept else elem :: kept) else rest
  else elem :: kept

/-- Go `path.Clean`: the shortest path equivalent to `p`; `.` for the empty
path. -/
def pathClean (p : String) : String :=
  if p = "" then "."
  else
    let rooted : Bool := p.data.head? = some '/'
    let kept := (splitSlash p.data).foldl (cleanStep rooted) []
    if rooted then String.mk ('/' :: joinSlash kept.reverse)
    else if kept = [] then "."
    else String.mk (joinSlash kept.reverse)

/-- The directory part of Go `path.Split`: the path up to its last slash, the
slash included. -/
def pathSplitDir (p : String) : String :=
  String.mk (p.data.reverse.dropWhile (fun c => c != '/')).reverse

/-- Go `cleanPath` of net/http: the canonical form of a request path, rooted,
cleaned, a trailing slash kept. -/
def cleanPath (p : String) : String :=
  if p = "" then "/"
  else
    let p1 := if p.data.head? = some '/' then p else String.mk ('/' :: p.data)
    let np := pathClean p1
    if p1.data.getLast? = some '/' ∧ np ≠ "/" then
      (if p1.length = np.length + 1 ∧ hasPrefix p1 np = true then p1
       else String.mk (np.data ++ ['/']))
    else np

/-- The UTF-8 bytes of a character. -/
def utf8Bytes (c : Char) : List Nat :=
  let n := c.toNat
  if n < 128 then [n]
  else if n < 2048 then [192 + n / 64, 128 + n % 64]
  else if n < 65536 then [224 + n / 4096, 128 + n / 64 % 64, 128 + n % 64]
  else [240 + n / 262144, 128 + n / 4096 % 64, 128 + n / 64 % 64, 128 + n % 64]

/-- A hexadecimal digit, lower case. -/
def hexDigit (d : Nat) : Char :=
  if d < 10 then Char.ofNat (48 + d) else Char.ofNat (87 + d)

/-- Go `hexEscapeNonASCII`, one character: an ASCII character stays, each
byte of another one becomes `%` and two hexadecimal digits. -/
def hexEscapeChar (c : Char) : List Char :=
  if c.toNat < 128 then [c]
  else (utf8Bytes c).flatMap (fun b => ['%', hexDigit (b / 16), hexDigit (b % 16)])

/-- Go `hexEscapeNonASCII` of net/http. -/
def hexEscapeNonASCII (s : String) : String :=
  String.mk (s.data.flatMap hexEscapeChar)

/-- Whether every character of the string is a visible ASCII character: no
control character, no space, nothing beyond ASCII. -/
def isVisibleASCII (s : String) : Bool := s.data.all (fun c => 33 ≤ c.toNat ∧ c.toNat ≤ 126)

/-- Go `isASCIISpace` of net/textproto. -/
def isASCIISpace (c : Char) : Bool := c = ' ' ∨ c = '\t' ∨ c = '\n' ∨ c = '\r'

/-- Go `textproto.TrimString`: the string without leading and trailing ASCII
space. -/
def trimString (s : String) : String :=
  String.mk ((s.data.dropWhile isASCIISpace).reverse.dropWhile isASCIISpace).reverse

/-- Go `headerNewlineToSpace`: a line feed or carriage return becomes a
space. -/
def headerNewlineToSpace (s : String) : String :=
  String.mk (s.data.map (fun c => if c = '\n' ∨ c = '\r' then ' ' else c))

/-- A header value as the server writes it: newlines replaced, then
trimmed. -/
def headerValue (v : String) : String := trimString (headerNewlineToSpace v)

/-- The token characters of a header field name. -/
def isTokenChar (c : Char) : Bool :=
  c.isAlphanum || "!#$%&\x27*+-.^_\x60|~".data.contains c

/-- Go `httpguts.ValidHeaderFieldName`: not empty, token characters only. -/
def validHeaderFieldName (k : String) : Bool := k ≠ "" && k.data.all isTokenChar

/-! ## net/url: what net/http asks of it -/

/-- The two fields of Go `url.URL` that `http.Redirect` reads. -/
structure URL where
  Scheme : String
  Host : String
  deriving DecidableEq, Repr

/-- The two functions of package net/url that net/http calls here:
`url.Parse`, with `none` for an error, and the `String()` of a
`url.URL` that has a path and a raw query only. -/
structure NetURL where
  Parse : String → Option URL
  PathQueryString : String → String → String

/-- Whether `url.Parse` succeeds on the target and finds neither a scheme nor
a host: the condition under which `http.Redirect` rewrites the target. -/
def NetURL.isRelative (lib : NetURL) (url : String) : Bool :=
  match lib.Parse url with
  | some u => u.Scheme = "" ∧ u.Host = ""
  | none => false

/-! ## net/http: the response writer

The part of net/http that `main.go` reaches.  A response is written through
three operations, `Header().Set`, `WriteHeader` and `Write`; the status line
and the header are fixed by the first `WriteHeader`, explicit or implied by
the first `Write`. -/

/-- The state behind the `http.ResponseWriter` of the server: the method of
the request it answers, the map that `Header()` returns, whether the header
has been written, the status code and the header as they were written, and
the body written so far. -/
structure ResponseWriter where
  reqMethod : String
  handlerHeader : GoMap
  wroteHeader : Bool
  status : Nat
  sentHeader : GoMap
  body : String
  deriving DecidableEq, Repr

/-- Go `w.Header().Set(key, value)`. -/
def ResponseWriter.HeaderSet (w : ResponseWriter) (key value : String) : ResponseWriter :=
  { w with handlerHeader := w.handlerHeader.set key value }

/-- The header as the server writes it out: the fields with a valid name,
each value as `headerValue` gives it. -/
def wireHeader (h : GoMap) : GoMap :=
  (h.filter (fun e => validHeaderFieldName e.1)).map (fun e => (e.1, headerValue e.2))

/-- Go `w.WriteHeader(code)`: the first call fixes the status code and the
header; a later call is superfluous and changes nothing. -/
def ResponseWriter.WriteHeader (w : ResponseWriter) (code : Nat) : ResponseWriter :=
  if w.wroteHeader then w
  else { w with wroteHeader := true, status := code, sentHeader := wireHeader w.handlerHeader }

/-- Go `http.StatusOK`. -/
def StatusOK : Nat := 200

/-- Go `http.StatusMovedPermanently`. -/
def StatusMovedPermanently : Nat := 301

/-- Go `http.StatusFound`. -/
def StatusFound : Nat := 302

/-- Go `http.StatusBadRequest`. -/
def StatusBadRequest : Nat := 400

/-- Go `http.StatusNotFound`. -/
def StatusNotFound : Nat := 404

/-- Go `bodyAllowedForStatus`: no body with 1xx, 204 and 304. -/
def bodyAllowedForStatus (status : Nat) : Bool :=
  if 100 ≤ status ∧ status ≤ 199 then false
  else if status = 204 then false
  else if status = 304 then false
  else true

/-- Go `w.Write(data)`: an implicit `WriteHeader(StatusOK)` when the header
is not written yet; then the data is appended to the body, unless the status
allows no body or the request is a HEAD request, whose writes are eaten. -/
def ResponseWriter.Write (w : ResponseWriter) (data : String) : ResponseWriter :=
  let w1 := if w.wroteHeader then w else w.WriteHeader StatusOK
  if bodyAllowedForStatus w1.status = false then w1
  else if w1.reqMethod = "HEAD" then w1
  else { w1 with body := w1.body ++ data }

/-- Go `fmt.Fprintln(w, s)` with one string operand: `s` and a newline, in one
`Write`. -/
def Fprintln (w : ResponseWriter) (s : String) : ResponseWriter :=
  w.Write (s ++ "\n")

/-- What the server does when the handler returns: a response whose header
was never written goes out with status 200. -/
def finishRequest (w : ResponseWriter) : ResponseWriter :=
  if w.wroteHeader then w else w.WriteHeader StatusOK

/-- The fields of `http.Request` that net/http and the handlers read here:
`r.Method`, `r.URL.Path`, `r.URL.RawQuery`, `r.RequestURI` and the protocol
version. -/
structure Request where
  Method : String
  Path : String
  RawQuery : String
  RequestURI : String
  ProtoMajor : Nat
  ProtoMinor : Nat
  deriving DecidableEq, Repr

/-- A GET request for a path, without query, over HTTP/1.1. -/
def Request.get (path : String) : Request :=
  { Method := "GET", Path := path, RawQuery := "", RequestURI := path,
    ProtoMajor := 1, ProtoMinor := 1 }

/-- Go `r.ProtoAtLeast(major, minor)`. -/
def Request.ProtoAtLeast (r : Request) (major minor : Nat) : Bool :=
  r.ProtoMajor > major ∨ (r.ProtoMajor = major ∧ r.ProtoMinor ≥ minor)

/-- The response writer the server hands to the registered handler for
request `r`. -/
def newResponse (r : Request) : ResponseWriter :=
  { reqMethod := r.Method, handlerHeader := GoMap.make, wroteHeader := false, status := 0,
    sentHeader := GoMap.make, body := "" }

/-- Go `http.Handler`, `ServeHTTP(w, r)` as a function on the response
state. -/
abbrev Handler := ResponseWriter → Request → ResponseWriter

/-- Go `http.StatusText`. -/
def StatusText (code : Nat) : String :=
  match code with
  | 100 => "Continue"
  | 101 => "Switching Protocols"
  | 102 => "Processing"
  | 103 => "Early Hints"
  | 200 => "OK"
  | 201 => "Created"
  | 202 => "Accepted"
  | 203 => "Non-Authoritative Information"
  | 204 => "No Content"
  | 205 => "Reset Content"
  | 206 => "Partial Content"
  | 207 => "Multi-Status"
  | 208 => "Already Reported"
  | 226 => "IM Used"
  | 300 => "Multiple Choices"
  | 301 => "Moved Permanently"
  | 302 => "Found"
  | 303 => "See Other"
  | 304 => "Not Modified"
  | 305 => "Use Proxy"
  | 307 => "Temporary Redirect"
  | 308 => "Permanent Redirect"
  | 400 => "Bad Request"
  | 401 => "Unauthorized"
  | 402 => "Payment Required"
  | 403 => "Forbidden"
  | 404 => "Not Found"
  | 405 => "Method Not Allowed"
  | 406 => "Not Acceptable"
  | 407 => "Proxy Authentication Required"
  | 408 => "Request Timeout"
  | 409 => "Conflict"
  | 410 => "Gone"
  | 411 => "Length Required"
  | 412 => "Precondition Failed"
  | 413 => "Request Entity Too Large"
  | 414 => "Request URI Too Long"
  | 415 => "Unsupported Media Type"
  | 416 => "Requested Range Not Satisfiable"
  | 417 => "Expectation Failed"
  | 418 => "I\x27m a teapot"
  | 421 => "Misdirected Request"
  | 422 => "Unprocessable Entity"
  | 423 => "Locked"
  | 424 => "Failed Dependency"
  | 425 => "Too Early"
  | 426 => "Upgrade Required"
  | 428 => "Precondition Required"
  | 429 => "Too Many Requests"
  | 431 => "Request Header Fields Too Large"
  | 451 => "Unavailable For Legal Reasons"
  | 500 => "Internal Server Error"
  | 501 => "Not Implemented"
  | 502 => "Bad Gateway"
  | 503 => "Service Unavailable"
  | 504 => "Gateway Timeout"
  | 505 => "HTTP Version Not Supported"
  | 506 => "Variant Also Negotiates"
  | 507 => "Insufficient Storage"
  | 508 => "Loop Detected"
  | 510 => "Not Extended"
  | 511 => "Network Authentication Required"
  | _ => ""

/-- Go `htmlEscape` of net/http, one character. -/
def htmlEscapeChar (c : Char) : List Char :=
  if c = '&' then "&amp;".data
  else if c = '<' then "&lt;".data
  else if c = '>' then "&gt;".data
  else if c = Char.ofNat 34 then "&#34;".data
  else if c = Char.ofNat 39 then "&#39;".data
  else [c]

/-- Go `htmlEscape` of net/http: the five characters with a meaning in
HTML are replaced by their entities. -/
def htmlEscape (s : String) : String :=
  String.mk (s.data.flatMap htmlEscapeChar)

/-- The short HTML body of a redirect, before `fmt.Fprintln` adds its
newline. -/
def redirectBody (url : String) (code : Nat) : String :=
  "<a href=\"" ++ htmlEscape url ++ "\">" ++ StatusText code ++ "</a>.\n"

/-- The target as `http.Redirect` rewrites it before use: when `url.Parse`
finds neither scheme nor host, a target that does not start with a slash is
put under the directory of the request path, and the part before the query
is cleaned, a trailing slash kept; any other target stays as it is. -/
def redirectTarget (lib : NetURL) (r : Request) (url : String) : String :=
  if lib.isRelative url = true then
    let oldpath := if r.Path = "" then "/" else r.Path
    let url1 :=
      if url = "" ∨ url.data.head? ≠ some '/' then pathSplitDir oldpath ++ url else url
    let query := String.mk (url1.data.dropWhile (fun c => c != '?'))
    let url2 := String.mk (url1.data.takeWhile (fun c => c != '?'))
    let trailing := hasSuffix url2 "/"
    let url3 := pathClean url2
    let url4 := if trailing = true ∧ hasSuffix url3 "/" = false then url3 ++ "/" else url3
    url4 ++ query
  else url

/-- Go `http.Redirect(w, r, url, code)`: `Location` is set to the rewritten
target, non-ASCII bytes escaped; unless the handler had set a `Content-Type`,
one is set for a GET or HEAD request; the header is written with `code`; and
for a GET request without earlier `Content-Type` the short HTML body
follows. -/
def Redirect (lib : NetURL) (w : ResponseWriter) (r : Request) (url : String) (code : Nat) :
    ResponseWriter :=
  let url' := redirectTarget lib r url
  let hadCT := (w.handlerHeader.get? "Content-Type").isSome
  let w1 := w.HeaderSet "Location" (hexEscapeNonASCII url')
  let w2 :=
    if hadCT = false ∧ (r.Method = "GET" ∨ r.Method = "HEAD") then
      w1.HeaderSet "Content-Type" "text/html; charset=utf-8"
    else w1
  let w3 := w2.WriteHeader code
  if hadCT = false ∧ r.Method = "GET" then Fprintln w3 (redirectBody url' code) else w3

/-- Go `http.RedirectHandler(url, code)`. -/
def RedirectHandler (lib : NetURL) (url : String) (code : Nat) : Handler :=
  fun w r => Redirect lib w r url code

/-- Go `http.Error(w, error, code)`. -/
def Error (w : ResponseWriter) (error : String) (code : Nat) : ResponseWriter :=
  let w1 := w.HeaderSet "Content-Type" "text/plain; charset=utf-8"
  let w2 := w1.HeaderSet "X-Content-Type-Options" "nosniff"
  let w3 := w2.WriteHeader code
  Fprintln w3 error

/-- Go `http.NotFound`. -/
def NotFound : Handler :=
  fun w _ => Error w "404 page not found" StatusNotFound

/-! ## net/http: the request multiplexer

The patterns are paths, without a host, as the one pattern of `defaultMux`
is. -/

/-- Go `http.ServeMux`: the registered patterns with their handlers. -/
structure ServeMux where
  es : List (String × Handler)

/-- Go `http.NewServeMux()`. -/
def NewServeMux : ServeMux := { es := [] }

/-- Go `mux.HandleFunc(pattern, handler)`. -/
def ServeMux.HandleFunc (mux : ServeMux) (pattern : String) (handler : Handler) : ServeMux :=
  { es := mux.es ++ [(pattern, handler)] }

/-- Go `mux.m[path]`: the handler registered under exactly this pattern. -/
def ServeMux.exact (mux : ServeMux) (path : String) : Option Handler :=
  (mux.es.find? (fun e => e.1 = path)).map Prod.snd

/-- The entry with the longest pattern, the earliest among equals. -/
def longestPattern : List (String × Handler) → Option (String × Handler)
  | [] => none
  | e :: rest =>
    match longestPattern rest with
    | none => some e
    | some e' => if e.1.length < e'.1.length then some e' else some e

/-- Go `mux.match`: an exact match first, else the longest pattern ending in
a slash that is a prefix of the path. -/
def ServeMux.find (mux : ServeMux) (path : String) : Option Handler :=
  match mux.exact path with
  | some h => some h
  | none =>
    (longestPattern
      (mux.es.filter (fun e => hasSuffix e.1 "/" && hasPrefix path e.1))).map Prod.snd

/-- Go `mux.handler`: the handler of the matching pattern, or
`NotFoundHandler()`. -/
def ServeMux.handler (mux : ServeMux) (path : String) : Handler :=
  match mux.find path with
  | some h => h
  | none => NotFound

/-- Go `mux.shouldRedirectRLocked`: the path is not registered, but the path
with a slash added is. -/
def ServeMux.shouldRedirect (mux : ServeMux) (path : String) : Bool :=
  if (mux.exact path).isSome = true then false
  else if path.length = 0 then false
  else if (mux.exact (path ++ "/")).isSome = true then
    (if path.data.getLast? = some '/' then false else true)
  else false

/-- Go `mux.Handler(r)`: a CONNECT request is matched as it is; for any other
request the path is brought to canonical form first, and a request whose path
is not in that form is answered with a permanent redirect to it. -/
def ServeMux.HandlerFor (lib : NetURL) (mux : ServeMux) (r : Request) : Handler :=
  if r.Method = "CONNECT" then
    if mux.shouldRedirect r.Path = true then
      RedirectHandler lib (lib.PathQueryString (r.Path ++ "/") r.RawQuery)
        StatusMovedPermanently
    else mux.handler r.Path
  else
    let path := cleanPath r.Path
    if mux.shouldRedirect path = true then
      RedirectHandler lib (lib.PathQueryString (path ++ "/") r.RawQuery) StatusMovedPermanently
    else if path ≠ r.Path then
      RedirectHandler lib (lib.PathQueryString path r.RawQuery) StatusMovedPermanently
    else mux.handler r.Path

/-- Go `mux.ServeHTTP(w, r)`: the request `*` is answered with 400, any other
goes to the handler that `mux.Handler(r)` finds. -/
def ServeMux.ServeHTTP (lib : NetURL) (mux : ServeMux) : Handler :=
  fun w r =>
    if r.RequestURI = "*" then
      let w1 := if r.ProtoAtLeast 1 1 = true then w.HeaderSet "Connection" "close" else w
      w1.WriteHeader StatusBadRequest
    else ServeMux.HandlerFor lib mux r w r

/-! ## main.go: the handlers -/

/-- Go `homeHandler`: `fmt.Fprintln(w, "Welcome!")`. -/
def homeHandler : Handler :=
  fun w _ => Fprintln w "Welcome!"

/-- Go `defaultMux`: a new mux with `homeHandler` registered under `/`. -/
def defaultMux : ServeMux :=
  let mux := NewServeMux
  mux.HandleFunc "/" homeHandler

/-- Go `mapHandler`: on a hit `http.Redirect(w, r, dest, http.StatusFound)`;
then, hit or miss, `fallbackHandler.ServeHTTP(w, r)`. -/
def mapHandler (lib : NetURL) (urlMap : GoMap) (fallbackHandler : Handler) : Handler :=
  fun w r =>
    let urlPath := r.Path
    let w1 :=
      match urlMap.get? urlPath with
      | some dest => Redirect lib w r dest StatusFound
      | none => w
    fallbackHandler w1 r

/-! ## main.go: decoding -/

/-- A byte buffer, Go `[]byte`. -/
abbrev Bytes := List UInt8

/-- Go `[]byte(s)` for a string of ASCII characters. -/
def bytesOf (s : String) : Bytes := s.data.map (fun c => UInt8.ofNat c.toNat)

/-- A Go `error` value, by its message. -/
abbrev GoError := String

/-- The signature of `json.Unmarshal` and `yaml.Unmarshal` at a slice of
records: the slice the call leaves in the target, which was nil, and the
error, `none` for Go's nil. -/
abbrev Unmarshal (α : Type) := Bytes → List α × Option GoError

/-- Go `parseJson`: on a decoding error the nil slice and that error, else the
decoded slice and nil. -/
def parseJson (jsonUnmarshal : Unmarshal jsonRedirectURL) (jsonData : Bytes) :
    List jsonRedirectURL × Option GoError :=
  let (urlRedirects, parseError) := jsonUnmarshal jsonData
  match parseError with
  | some e => ([], some e)
  | none => (urlRedirects, none)

/-- Go `parseYaml`: on a decoding error the nil slice and that error, else the
decoded slice and nil. -/
def parseYaml (yamlUnmarshal : Unmarshal yamlRedirectURL) (yamlData : Bytes) :
    List yamlRedirectURL × Option GoError :=
  let (urlRedirects, parseErr) := yamlUnmarshal yamlData
  match parseErr with
  | some e => ([], some e)
  | none => (urlRedirects, none)

/-- Go `mapJsonHandler`: `nil, err` when `parseJson` fails, else the
`mapHandler` of the built table and nil.  The nil handler is `none`. -/
def mapJsonHandler (lib : NetURL) (jsonUnmarshal : Unmarshal jsonRedirectURL)
    (jsonData : Bytes) (fallbackHandler : Handler) : Option Handler × Option GoError :=
  let (parsedJsonUrls, err) := parseJson jsonUnmarshal jsonData
  match err with
  | some e => (none, some e)
  | none =>
    let urlMap := mapJsonUrls parsedJsonUrls
    (some (mapHandler lib urlMap fallbackHandler), none)

/-- Go `mapYamlHandler`: `nil, err` when `parseYaml` fails, else the
`mapHandler` of the built table and nil.  The nil handler is `none`. -/
def mapYamlHandler (lib : NetURL) (yamlUnmarshal : Unmarshal yamlRedirectURL)
    (yamlData : Bytes) (fallbackHandler : Handler) : Option Handler × Option GoError :=
  let (parsedYamlUrls, err) := parseYaml yamlUnmarshal yamlData
  match err with
  | some e => (none, some e)
  | none =>
    let urlMap := mapYamlUrls parsedYamlUrls
    (some (mapHandler lib urlMap fallbackHandler), none)

/-! ## main.go: start-up -/

/-- The two calls `main` makes on the file system: `os.Open`, giving a file
handle, and `ioutil.ReadAll` on it. -/
structure FileSystem where
  Open : String → Except GoError Nat
  ReadAll : Nat → Except GoError Bytes

/-- Go `main` up to the call of `http.ListenAndServe`: the message that
`exitProgram` prints before `os.Exit(1)`, or the handler that is registered
on `:8080`.  The file names are the values of the two flags.  A nil handler
with a nil error, which neither `mapJsonHandler` nor `mapYamlHandler`
returns, is closed with an empty message. -/
def main (lib : NetURL) (fs : FileSystem) (jsonUnmarshal : Unmarshal jsonRedirectURL)
    (yamlUnmarshal : Unmarshal yamlRedirectURL) (yamlFileName jsonFileName : String) :
    Except String Handler :=
  match fs.Open jsonFileName with
  | .error jsonOpenE => .error ("Error opening file " ++ jsonFileName ++ " " ++ jsonOpenE)
  | .ok jsonFile =>
  match fs.ReadAll jsonFile with
  | .error jsonReadE => .error ("Error reading file " ++ jsonFileName ++ " " ++ jsonReadE)
  | .ok jsonData =>
  let mux := defaultMux
  match mapJsonHandler lib jsonUnmarshal jsonData (mux.ServeHTTP lib) with
  | (_, some jsonMapE) => .error ("Error creating json handler " ++ jsonMapE)
  | (none, none) => .error ""
  | (some jsonHandler, none) =>
  match fs.Open yamlFileName with
  | .error yamlOpenE => .error ("Error opening file " ++ yamlFileName ++ " " ++ yamlOpenE)
  | .ok yamlFile =>
  match fs.ReadAll yamlFile with
  | .error yamlReadE => .error ("Error reading file " ++ yamlFileName ++ " " ++ yamlReadE)
  | .ok yamlData =>
  match mapYamlHandler lib yamlUnmarshal yamlData jsonHandler with
  | (_, some yamlMapE) => .error ("Error creating yaml handler " ++ yamlMapE)
  | (none, none) => .error ""
  | (some yamlHandler, none) => .ok yamlHandler

/-- The response the client gets from handler `h` on request `r`. -/
def serve (h : Handler) (r : Request) : ResponseWriter :=
  finishRequest (h (newResponse r) r)

/-! ## The claims, stated on the side of the specification -/

/-- The last record, in input order, of a JSON sequence that has path `p`. -/
def lastJsonWithPath (es : List jsonRedirectURL) (p : String) : Option jsonRedirectURL :=
  (es.filter (fun e => e.Path = p)).getLast?

/-- The last record, in input order, of a YAML sequence that has path `p`. -/
def lastYamlWithPath (es : List yamlRedirectURL) (p : String) : Option yamlRedirectURL :=
  (es.filter (fun e => e.Path = p)).getLast?

/-- The JSON record carrying a (path, url) pair. -/
def jsonOfPair (p : String × String) : jsonRedirectURL := { Path := p.1, URL := p.2 }

/-- The YAML record carrying a (path, url) pair. -/
def yamlOfPair (p : String × String) : yamlRedirectURL := { Path := p.1, URL := p.2 }

/-- The chain of two resolvers over the default handler:
`mapHandler(outer, mapHandler(inner, defaultMux()))`. -/
def chain (lib : NetURL) (outer inner : GoMap) : Handler :=
  mapHandler lib outer (mapHandler lib inner (defaultMux.ServeHTTP lib))

/-- The response `w'` has its header written, with the status and the sent
header of `w`. -/
def Kept (w w' : ResponseWriter) : Prop :=
  w'.wroteHeader = true ∧ w'.status = w.status ∧ w'.sentHeader = w.sentHeader

/-- The response has its header written, with status `code` and `Location`
equal to `loc`. -/
def RedirectedTo (code : Nat) (loc : String) (w : ResponseWriter) : Prop :=
  w.wroteHeader = true ∧ w.status = code ∧ w.sentHeader.get? "Location" = some loc

/-- A handler that leaves a written header alone: called on a response whose
header is written, it changes neither the status nor the header that was
sent. -/
def KeepsHeader (h : Handler) : Prop :=
  ∀ w r, w.wroteHeader = true → Kept w (h w r)

/-- The response to request `r` of the handler that `main` registers, when
start-up gets that far. -/
def mainResponse (lib : NetURL) (fs : FileSystem) (jsonUnmarshal : Unmarshal jsonRedirectURL)
    (yamlUnmarshal : Unmarshal yamlRedirectURL) (yamlFileName jsonFileName : String)
    (r : Request) : Option ResponseWriter :=
  match main lib fs jsonUnmarshal yamlUnmarshal yamlFileName jsonFileName with
  | .ok h => some (serve h r)
  | .error _ => none

/-- The values of `url.Parse` at the targets used in the examples below: the
absolute ones have the scheme `https` and a host, the others neither.  At any
other string this is not `url.Parse`. -/
def urlParseA : String → Option URL
  | "https://golang.org" => some { Scheme := "https", Host := "golang.org" }
  | "https://go.dev" => some { Scheme := "https", Host := "go.dev" }
  | "https://yaml.org" => some { Scheme := "https", Host := "yaml.org" }
  | "https://json.example" => some { Scheme := "https", Host := "json.example" }
  | "https://yaml.example" => some { Scheme := "https", Host := "yaml.example" }
  | "rel" => some { Scheme := "", Host := "" }
  | "" => some { Scheme := "", Host := "" }
  | "/missing" => some { Scheme := "", Host := "" }
  | "/go" => some { Scheme := "", Host := "" }
  | _ => none

/-- Package net/url for the examples below: `urlParseA`, and the `String()`
of a URL whose path needs no escaping. -/
def libA : NetURL :=
  { Parse := urlParseA
    PathQueryString := fun p q => if q = "" then p else p ++ "?" ++ q }

/-- The content of the example file `json-urls.json`. -/
def jsonFileA : Bytes := bytesOf "[\x7b\"path\":\"/a\",\"url\":\"https://json.example\"\x7d]"

/-- The content of the example file `yaml-urls.yaml`. -/
def yamlFileA : Bytes := bytesOf "- path: /a\n  url: https://yaml.example\n"

/-- A file system with the two default files, `json-urls.json` holding
`jsonFileA` and `yaml-urls.yaml` holding `yamlFileA`. -/
def twoFiles : FileSystem :=
  { Open := fun name =>
      if name = "json-urls.json" then .ok 3
      else if name = "yaml-urls.yaml" then .ok 4
      else .error ("open " ++ name ++ ": no such file or directory")
    ReadAll := fun fd =>
      if fd = 3 then .ok jsonFileA
      else if fd = 4 then .ok yamlFileA
      else .error "bad file descriptor" }

/-- The values of `json.Unmarshal` at two buffers: the empty one, an error,
and `jsonFileA`, one record.  At any other buffer this is not
`json.Unmarshal`. -/
def jsonUnmarshalA : Unmarshal jsonRedirectURL :=
  fun data =>
    if data = [] then ([], some "unexpected end of JSON input")
    else if data = jsonFileA then ([{ Path := "/a", URL := "https://json.example" }], none)
    else ([], some "invalid character")

/-- The values of `yaml.Unmarshal` at two buffers: the one holding a tab, an
error, and `yamlFileA`, one record.  At any other buffer this is not
`yaml.Unmarshal`. -/
def yamlUnmarshalA : Unmarshal yamlRedirectURL :=
  fun data =>
    if data = [9] then ([], some "yaml: found character that cannot start any token")
    else if data = yamlFileA then ([{ Path := "/a", URL := "https://yaml.example" }], none)
    else ([], some "yaml: unmarshal errors")

/-! ## Lemmas on Go maps -/

theorem GoMap.get?_set_self (m : GoMap) (k v : String) : (m.set k v).get? k = some v := by
  induction m with
  | nil => simp [GoMap.set, GoMap.get?]
  | cons e rest ih =>
    obtain ⟨k', v'⟩ := e
    by_cases h : k' = k
    · simp [GoMap.set, GoMap.get?, h]
    · simp [GoMap.set, GoMap.get?, h, ih]

theorem GoMap.get?_set_ne (m : GoMap) (k v k₀ : String) (hne : k ≠ k₀) :
    (m.set k v).get? k₀ = m.get? k₀ := by
  induction m with
  | nil => simp [GoMap.set, GoMap.get?, hne]
  | cons e rest ih =>
    obtain ⟨k', v'⟩ := e
    by_cases h : k' = k
    · subst h
      simp [GoMap.set, GoMap.get?, hne]
    · by_cases h0 : k' = k₀
      · subst h0
        simp [GoMap.set, GoMap.get?, h]
      · simp [GoMap.set, GoMap.get?, h, h0, ih]

theorem GoMap.get?_isSome_iff (m : GoMap) (k : String) :
    (m.get? k).isSome = true ↔ k ∈ m.keys := by
  induction m with
  | nil => simp [GoMap.get?, GoMap.keys]
  | cons e rest ih =>
    obtain ⟨k', v'⟩ := e
    by_cases h : k' = k
    · simp [GoMap.get?, GoMap.keys, h]
    · have h' : ¬ k = k' := fun hk => h hk.symm
      simp only [GoMap.keys] at ih
      simp [GoMap.get?, GoMap.keys, h, h', ih]

theorem GoMap.keys_set_of_mem (m : GoMap) (k v : String) (hk : k ∈ m.keys) :
    (m.set k v).keys = m.keys := by
  induction m with
  | nil => simp [GoMap.keys] at hk
  | cons e rest ih =>
    obtain ⟨k', v'⟩ := e
    by_cases h : k' = k
    · simp [GoMap.set, GoMap.keys, h]
    · have h' : ¬ k = k' := fun hk => h hk.symm
      simp only [GoMap.keys, List.map_cons, List.mem_cons, h', false_or] at hk
      simp only [GoMap.keys] at ih
      simp [GoMap.set, GoMap.keys, h, ih hk]

theorem GoMap.keys_set_of_not_mem (m : GoMap) (k v : String) (hk : k ∉ m.keys) :
    (m.set k v).keys = m.keys ++ [k] := by
  induction m with
  | nil => simp [GoMap.set, GoMap.keys]
  | cons e rest ih =>
    obtain ⟨k', v'⟩ := e
    simp only [GoMap.keys, List.map_cons, List.mem_cons, not_or] at hk
    have h : ¬ k' = k := fun h => hk.1 h.symm
    simp only [GoMap.keys] at ih
    simp [GoMap.set, GoMap.keys, h, ih hk.2]

/-- Where the builder's loop leaves key `k`: at the value of the last record
with that key, or where it was. -/
theorem foldl_set_get? {α : Type} (key val : α → String) (es : List α) (m : GoMap)
    (k : String) :
    (es.foldl (fun urlMap e => GoMap.set urlMap (key e) (val e)) m).get? k =
      match (es.filter (fun e => key e = k)).getLast? with
      | some e => some (val e)
      | none => m.get? k := by
  induction es generalizing m with
  | nil => simp
  | cons e rest ih =>
    rw [List.foldl_cons, ih]
    by_cases h : key e = k
    · subst h
      rw [List.filter_cons_of_pos (by simp)]
      cases hl : (rest.filter (fun e' => key e' = key e)).getLast? with
      | none =>
        have hnil : rest.filter (fun e' => key e' = key e) = [] := by
          simpa [List.getLast?_eq_none_iff] using hl
        simp [hnil, GoMap.get?_set_self]
      | some e' =>
        have hne : rest.filter (fun e' => key e' = key e) ≠ [] := by
          intro hnil
          simp [hnil] at hl
        obtain ⟨x, xs, hx⟩ := List.exists_cons_of_ne_nil hne
        rw [hx] at hl ⊢
        rw [List.getLast?_cons_cons, hl]
    · rw [List.filter_cons_of_neg (by simpa using h), GoMap.get?_set_ne _ _ _ _ h]

/-- The keys the builder's loop leaves when the keys it meets are new and
pairwise distinct: the old ones, then the new ones in input order. -/
theorem foldl_set_keys {α : Type} (key val : α → String) (es : List α) (m : GoMap)
    (hnd : (m.keys ++ es.map key).Nodup) :
    (es.foldl (fun urlMap e => GoMap.set urlMap (key e) (val e)) m).keys =
      m.keys ++ es.map key := by
  induction es generalizing m with
  | nil => simp
  | cons e rest ih =>
    have hk : key e ∉ m.keys := by
      intro hmem
      rw [List.nodup_append] at hnd
      exact hnd.2.2 hmem (by simp)
    have hkeys := GoMap.keys_set_of_not_mem m (key e) (val e) hk
    rw [List.foldl_cons, ih]
    · rw [hkeys]
      simp
    · rw [hkeys]
      simpa using hnd

theorem GoMap.len_eq_keys_length (m : GoMap) : m.len = m.keys.length := by
  simp [GoMap.len, GoMap.keys]

/-- With pairwise distinct keys the loop leaves every record's key at that
record's value. -/
theorem foldl_set_get?_of_mem {α : Type} (key val : α → String) (es : List α)
    (hnd : (es.map key).Nodup) (e : α) (he : e ∈ es) :
    (es.foldl (fun urlMap e => GoMap.set urlMap (key e) (val e)) GoMap.make).get? (key e) =
      some (val e) := by
  rw [foldl_set_get?]
  cases hl : (es.filter (fun e' => key e' = key e)).getLast? with
  | none =>
    have hmem : e ∈ es.filter (fun e' => key e' = key e) := by
      simp [List.mem_filter, he]
    rw [List.getLast?_eq_none_iff] at hl
    rw [hl] at hmem
    simp at hmem
  | some x =>
    have hx := List.mem_of_getLast?_eq_some hl
    rw [List.mem_filter] at hx
    have hxe : x = e := List.inj_on_of_nodup_map hnd hx.1 he (by simpa using hx.2)
    simp [hxe]

/-- A key the loop leaves in the fresh map is the key of some record. -/
theorem foldl_set_key_mem {α : Type} (key val : α → String) (es : List α) (k : String)
    (hk : ((es.foldl (fun urlMap e => GoMap.set urlMap (key e) (val e)) GoMap.make).get? k).isSome
      = true) :
    k ∈ es.map key := by
  rw [foldl_set_get?] at hk
  cases hl : (es.filter (fun e' => key e' = k)).getLast? with
  | none => simp [hl, GoMap.get?, GoMap.make] at hk
  | some x =>
    have hx := List.mem_of_getLast?_eq_some hl
    rw [List.mem_filter] at hx
    exact List.mem_map.mpr ⟨x, hx.1, by simpa using hx.2⟩

/-- With pairwise distinct keys the loop leaves as many entries as there are
records. -/
theorem foldl_set_len {α : Type} (key val : α → String) (es : List α)
    (hnd : (es.map key).Nodup) :
    (es.foldl (fun urlMap e => GoMap.set urlMap (key e) (val e)) GoMap.make).len = es.length := by
  rw [GoMap.len_eq_keys_length, foldl_set_keys key val es GoMap.make (by simpa [GoMap.keys, GoMap.make] using hnd)]
  simp [GoMap.keys, GoMap.make]

/-! ## The table builders: theorems -/

/-- C7: for every sequence of redirect records and every path that occurs in
it, also several times, the table built by `mapJsonUrls`, and likewise by
`mapYamlUrls`, maps that path to the URL of the last record in input order
that has this path. -/
theorem mapUrls_last_occurrence_wins (js : List jsonRedirectURL) (ys : List yamlRedirectURL)
    (p q : String) (hp : p ∈ js.map jsonRedirectURL.Path)
    (hq : q ∈ ys.map yamlRedirectURL.Path) :
    ((lastJsonWithPath js p).isSome = true ∧
      (mapJsonUrls js).get? p = (lastJsonWithPath js p).map jsonRedirectURL.URL) ∧
    ((lastYamlWithPath ys q).isSome = true ∧
      (mapYamlUrls ys).get? q = (lastYamlWithPath ys q).map yamlRedirectURL.URL) := by
  refine ⟨⟨?_, ?_⟩, ⟨?_, ?_⟩⟩
  · obtain ⟨e, he, hpe⟩ := List.mem_map.mp hp
    have hmem : e ∈ js.filter (fun e => e.Path = p) := by simp [List.mem_filter, he, hpe]
    rw [lastJsonWithPath, List.getLast?_isSome]
    exact List.ne_nil_of_mem hmem
  · rw [mapJsonUrls, foldl_set_get? jsonRedirectURL.Path jsonRedirectURL.URL, lastJsonWithPath]
    cases hl : (js.filter (fun e => e.Path = p)).getLast? with
    | none =>
      obtain ⟨e, he, hpe⟩ := List.mem_map.mp hp
      have hmem : e ∈ js.filter (fun e => e.Path = p) := by simp [List.mem_filter, he, hpe]
      rw [List.getLast?_eq_none_iff] at hl
      rw [hl] at hmem
      simp at hmem
    | some x => simp
  · obtain ⟨e, he, hqe⟩ := List.mem_map.mp hq
    have hmem : e ∈ ys.filter (fun e => e.Path = q) := by simp [List.mem_filter, he, hqe]
    rw [lastYamlWithPath, List.getLast?_isSome]
    exact List.ne_nil_of_mem hmem
  · rw [mapYamlUrls, foldl_set_get? yamlRedirectURL.Path yamlRedirectURL.URL, lastYamlWithPath]
    cases hl : (ys.filter (fun e => e.Path = q)).getLast? with
    | none =>
      obtain ⟨e, he, hqe⟩ := List.mem_map.mp hq
      have hmem : e ∈ ys.filter (fun e => e.Path = q) := by simp [List.mem_filter, he, hqe]
      rw [List.getLast?_eq_none_iff] at hl
      rw [hl] at hmem
      simp at hmem
    | some x => simp

/-- Witness of C7: the path `/a` occurs twice in the JSON sequence and three
times in the YAML one; the last URL is looked up. -/
theorem mapUrls_last_occurrence_wins_witness :
    ("/a" ∈ ([⟨"/a", "x"⟩, ⟨"/b", "y"⟩, ⟨"/a", "z"⟩] : List jsonRedirectURL).map
        jsonRedirectURL.Path ∧
      "/a" ∈ ([⟨"/a", "1"⟩, ⟨"/a", "2"⟩, ⟨"/a", "3"⟩] : List yamlRedirectURL).map
        yamlRedirectURL.Path) ∧
    (mapJsonUrls [⟨"/a", "x"⟩, ⟨"/b", "y"⟩, ⟨"/a", "z"⟩]).get? "/a" = some "z" ∧
    (mapYamlUrls [⟨"/a", "1"⟩, ⟨"/a", "2"⟩, ⟨"/a", "3"⟩]).get? "/a" = some "3" := by
  have h := mapUrls_last_occurrence_wins
    [⟨"/a", "x"⟩, ⟨"/b", "y"⟩, ⟨"/a", "z"⟩] [⟨"/a", "1"⟩, ⟨"/a", "2"⟩, ⟨"/a", "3"⟩]
    "/a" "/a" (by decide) (by decide)
  refine ⟨⟨by decide, by decide⟩, ?_, ?_⟩
  · rw [h.1.2]
    decide
  · rw [h.2.2]
    decide

/-- C8: for every sequence of redirect records with pairwise distinct paths,
the table built by `mapJsonUrls`, and likewise by `mapYamlUrls`, has as many
entries as the sequence, maps each record's path to that record's URL and has
no key that is not the path of a record; a record with the empty path is
stored under the empty key like any other, and the empty sequence gives the
empty table.  The builders are total functions: they cannot fail. -/
theorem mapUrls_distinct_paths (js : List jsonRedirectURL) (ys : List yamlRedirectURL)
    (hj : (js.map jsonRedirectURL.Path).Nodup) (hy : (ys.map yamlRedirectURL.Path).Nodup) :
    ((mapJsonUrls js).len = js.length ∧
      (∀ e ∈ js, (mapJsonUrls js).get? e.Path = some e.URL) ∧
      (∀ k, ((mapJsonUrls js).get? k).isSome = true → k ∈ js.map jsonRedirectURL.Path) ∧
      (∀ u, ({ Path := "", URL := u } : jsonRedirectURL) ∈ js →
        (mapJsonUrls js).get? "" = some u)) ∧
    ((mapYamlUrls ys).len = ys.length ∧
      (∀ e ∈ ys, (mapYamlUrls ys).get? e.Path = some e.URL) ∧
      (∀ k, ((mapYamlUrls ys).get? k).isSome = true → k ∈ ys.map yamlRedirectURL.Path) ∧
      (∀ u, ({ Path := "", URL := u } : yamlRedirectURL) ∈ ys →
        (mapYamlUrls ys).get? "" = some u)) ∧
    (mapJsonUrls [] = GoMap.make ∧ mapYamlUrls [] = GoMap.make) := by
  refine ⟨⟨?_, ?_, ?_, ?_⟩, ⟨?_, ?_, ?_, ?_⟩, rfl, rfl⟩
  · exact foldl_set_len jsonRedirectURL.Path jsonRedirectURL.URL js hj
  · exact fun e he => foldl_set_get?_of_mem jsonRedirectURL.Path jsonRedirectURL.URL js hj e he
  · exact fun k hk => foldl_set_key_mem jsonRedirectURL.Path jsonRedirectURL.URL js k hk
  · exact fun u hu =>
      foldl_set_get?_of_mem jsonRedirectURL.Path jsonRedirectURL.URL js hj ⟨"", u⟩ hu
  · exact foldl_set_len yamlRedirectURL.Path yamlRedirectURL.URL ys hy
  · exact fun e he => foldl_set_get?_of_mem yamlRedirectURL.Path yamlRedirectURL.URL ys hy e he
  · exact fun k hk => foldl_set_key_mem yamlRedirectURL.Path yamlRedirectURL.URL ys k hk
  · exact fun u hu =>
      foldl_set_get?_of_mem yamlRedirectURL.Path yamlRedirectURL.URL ys hy ⟨"", u⟩ hu

/-- Witness of C8: two sequences with distinct paths, each with a record whose
path is empty. -/
theorem mapUrls_distinct_paths_witness :
    ((([⟨"/go", "https://golang.org"⟩, ⟨"", "https://empty.example"⟩] :
        List jsonRedirectURL).map jsonRedirectURL.Path).Nodup ∧
      (([⟨"", "https://void.example"⟩, ⟨"/yaml", "https://yaml.org"⟩] :
        List yamlRedirectURL).map yamlRedirectURL.Path).Nodup) ∧
    (mapJsonUrls [⟨"/go", "https://golang.org"⟩, ⟨"", "https://empty.example"⟩]).len = 2 ∧
    (mapJsonUrls [⟨"/go", "https://golang.org"⟩, ⟨"", "https://empty.example"⟩]).get? "" =
      some "https://empty.example" ∧
    (mapYamlUrls [⟨"", "https://void.example"⟩, ⟨"/yaml", "https://yaml.org"⟩]).len = 2 ∧
    (mapYamlUrls [⟨"", "https://void.example"⟩, ⟨"/yaml", "https://yaml.org"⟩]).get? "" =
      some "https://void.example" := by
  have h := mapUrls_distinct_paths
    [⟨"/go", "https://golang.org"⟩, ⟨"", "https://empty.example"⟩]
    [⟨"", "https://void.example"⟩, ⟨"/yaml", "https://yaml.org"⟩] (by decide) (by decide)
  exact ⟨⟨by decide, by decide⟩, h.1.1, h.1.2.2.2 _ (by decide), h.2.1.1,
    h.2.1.2.2.2 _ (by decide)⟩

/-- C10: the two builders treat the two record types alike: for every
sequence of (path, url) pairs, `mapJsonUrls` on the JSON records carrying the
pairs and `mapYamlUrls` on the YAML records carrying the same pairs in the
same order return the same table. -/
theorem mapJsonUrls_eq_mapYamlUrls (ps : List (String × String)) :
    mapJsonUrls (ps.map jsonOfPair) = mapYamlUrls (ps.map yamlOfPair) := by
  simp [mapJsonUrls, mapYamlUrls, List.foldl_map, jsonOfPair, yamlOfPair]

/-! ## Strings and paths: lemmas -/

theorem isVisibleASCII_iff (s : String) :
    isVisibleASCII s = true ↔ ∀ c ∈ s.data, 33 ≤ c.toNat ∧ c.toNat ≤ 126 := by
  simp [isVisibleASCII, List.all_eq_true]

theorem hexEscapeNonASCII_of_visible (s : String) (h : isVisibleASCII s = true) :
    hexEscapeNonASCII s = s := by
  have key : ∀ l : List Char, (∀ c ∈ l, 33 ≤ c.toNat ∧ c.toNat ≤ 126) →
      l.flatMap hexEscapeChar = l := by
    intro l
    induction l with
    | nil => intro _; rfl
    | cons c cs ih =>
      intro hl
      have hc : c.toNat < 128 := by
        have := (hl c (List.mem_cons_self c cs)).2
        omega
      rw [List.flatMap_cons, ih (fun d hd => hl d (List.mem_cons_of_mem c hd))]
      simp [hexEscapeChar, hc]
  unfold hexEscapeNonASCII
  rw [key s.data ((isVisibleASCII_iff s).mp h)]

theorem isASCIISpace_of_visible (c : Char) (hc : 33 ≤ c.toNat ∧ c.toNat ≤ 126) :
    isASCIISpace c = false := by
  have h1 : c ≠ ' ' := by rintro rfl; exact absurd hc.1 (by decide)
  have h2 : c ≠ '\t' := by rintro rfl; exact absurd hc.1 (by decide)
  have h3 : c ≠ '\n' := by rintro rfl; exact absurd hc.1 (by decide)
  have h4 : c ≠ '\r' := by rintro rfl; exact absurd hc.1 (by decide)
  simp [isASCIISpace, h1, h2, h3, h4]

theorem dropWhile_space_of_visible (l : List Char)
    (hl : ∀ c ∈ l, 33 ≤ c.toNat ∧ c.toNat ≤ 126) : l.dropWhile isASCIISpace = l := by
  cases l with
  | nil => rfl
  | cons c cs =>
    rw [List.dropWhile_cons_of_neg]
    rw [isASCIISpace_of_visible c (hl c (List.mem_cons_self c cs))]
    simp

theorem headerValue_of_visible (s : String) (h : isVisibleASCII s = true) :
    headerValue s = s := by
  have hv := (isVisibleASCII_iff s).mp h
  have hmap : s.data.map (fun c => if c = '\n' ∨ c = '\r' then ' ' else c) = s.data := by
    have hid : ∀ c ∈ s.data, (fun c => if c = '\n' ∨ c = '\r' then ' ' else c) c = id c := by
      intro c hc
      have h3 : c ≠ '\n' := by rintro rfl; exact absurd (hv _ hc).1 (by decide)
      have h4 : c ≠ '\r' := by rintro rfl; exact absurd (hv _ hc).1 (by decide)
      simp [h3, h4]
    rw [List.map_congr_left hid, List.map_id]
  have hrev : ∀ c ∈ s.data.reverse, 33 ≤ c.toNat ∧ c.toNat ≤ 126 :=
    fun c hc => hv c (List.mem_reverse.mp hc)
  simp only [headerValue, headerNewlineToSpace, trimString, hmap]
  rw [dropWhile_space_of_visible s.data hv, dropWhile_space_of_visible s.data.reverse hrev,
    List.reverse_reverse]

theorem wireHeader_get? (m : GoMap) (k : String) (hk : validHeaderFieldName k = true) :
    (wireHeader m).get? k = (m.get? k).map headerValue := by
  induction m with
  | nil => rfl
  | cons e rest ih =>
    obtain ⟨k', v⟩ := e
    by_cases hv : validHeaderFieldName k' = true
    · have hw : wireHeader ((k', v) :: rest) = (k', headerValue v) :: wireHeader rest := by
        simp [wireHeader, List.filter, hv]
      rw [hw]
      by_cases hkk : k' = k
      · simp [GoMap.get?, hkk]
      · simp [GoMap.get?, hkk, ih]
    · have hw : wireHeader ((k', v) :: rest) = wireHeader rest := by
        simp [wireHeader, List.filter, hv]
      have hkk : ¬ k' = k := by
        intro h
        rw [h] at hv
        exact hv hk
      rw [hw, ih]
      simp [GoMap.get?, hkk]

theorem redirectTarget_of_not_relative (lib : NetURL) (r : Request) (url : String)
    (h : lib.isRelative url = false) : redirectTarget lib r url = url := by
  simp [redirectTarget, h]

theorem pathClean_rooted (q : String) (hq : q.data.head? = some '/') :
    (pathClean q).data.head? = some '/' := by
  have hne : q ≠ "" := by
    intro h
    rw [h] at hq
    simp at hq
  simp [pathClean, hne, hq]

theorem cleanPath_rooted (p : String) : (cleanPath p).data.head? = some '/' := by
  by_cases hp : p = ""
  · simp [cleanPath, hp]
  · by_cases hh : p.data.head? = some '/'
    · have hnp := pathClean_rooted p hh
      simp only [cleanPath, hp, hh, if_true, if_false]
      split_ifs
      · exact hh
      · cases hd : (pathClean p).data with
        | nil => rw [hd] at hnp; simp at hnp
        | cons c cs => rw [hd] at hnp; simpa using hnp
      · exact hnp
    · have hq : (String.mk ('/' :: p.data)).data.head? = some '/' := rfl
      have hnp := pathClean_rooted (String.mk ('/' :: p.data)) hq
      simp only [cleanPath, hp, hh, if_true, if_false]
      split_ifs
      · rfl
      · cases hd : (pathClean (String.mk ('/' :: p.data))).data with
        | nil => rw [hd] at hnp; simp at hnp
        | cons c cs => rw [hd] at hnp; simpa using hnp
      · exact hnp

/-! ## The response writer: lemmas -/

theorem Kept_refl (w : ResponseWriter) (hw : w.wroteHeader = true) : Kept w w :=
  ⟨hw, rfl, rfl⟩

theorem Kept_trans {a b c : ResponseWriter} (hab : Kept a b) (hbc : Kept b c) : Kept a c :=
  ⟨hbc.1, hbc.2.1.trans hab.2.1, hbc.2.2.trans hab.2.2⟩

theorem Kept_HeaderSet (w : ResponseWriter) (k v : String) (hw : w.wroteHeader = true) :
    Kept w (w.HeaderSet k v) :=
  ⟨hw, rfl, rfl⟩

theorem WriteHeader_of_wrote (w : ResponseWriter) (code : Nat) (hw : w.wroteHeader = true) :
    w.WriteHeader code = w := by
  simp [ResponseWriter.WriteHeader, hw]

theorem Kept_WriteHeader (w : ResponseWriter) (code : Nat) (hw : w.wroteHeader = true) :
    Kept w (w.WriteHeader code) := by
  rw [WriteHeader_of_wrote w code hw]
  exact Kept_refl w hw

theorem Kept_Write (w : ResponseWriter) (data : String) (hw : w.wroteHeader = true) :
    Kept w (w.Write data) := by
  unfold ResponseWriter.Write Kept
  simp only [hw, if_true]
  split_ifs <;> simp [hw]

theorem Kept_Redirect (lib : NetURL) (w : ResponseWriter) (r : Request) (url : String)
    (code : Nat) (hw : w.wroteHeader = true) : Kept w (Redirect lib w r url code) := by
  have hA := Kept_HeaderSet w "Location" (hexEscapeNonASCII (redirectTarget lib r url)) hw
  have hB := Kept_trans hA (Kept_HeaderSet _ "Content-Type" "text/html; charset=utf-8" hA.1)
  have hWH : ∀ w2, Kept w w2 → Kept w (w2.WriteHeader code) :=
    fun w2 h => Kept_trans h (Kept_WriteHeader _ _ h.1)
  have hFp : ∀ w2 s, Kept w w2 → Kept w (Fprintln w2 s) :=
    fun w2 s h => Kept_trans h (Kept_Write _ _ h.1)
  unfold Redirect
  simp only []
  split_ifs
  all_goals
    first
    | exact hFp _ _ (hWH _ hB)
    | exact hFp _ _ (hWH _ hA)
    | exact hWH _ hB

theorem Kept_Error (w : ResponseWriter) (error : String) (code : Nat)
    (hw : w.wroteHeader = true) : Kept w (Error w error code) := by
  have h1 := Kept_HeaderSet w "Content-Type" "text/plain; charset=utf-8" hw
  have h2 := Kept_trans h1 (Kept_HeaderSet _ "X-Content-Type-Options" "nosniff" h1.1)
  have h3 := Kept_trans h2 (Kept_WriteHeader _ code h2.1)
  exact Kept_trans h3 (Kept_Write _ _ h3.1)

theorem NotFound_keeps : KeepsHeader NotFound :=
  fun w _ hw => Kept_Error w _ _ hw

theorem homeHandler_keeps : KeepsHeader homeHandler :=
  fun w _ hw => Kept_Write w _ hw

theorem RedirectHandler_keeps (lib : NetURL) (url : String) (code : Nat) :
    KeepsHeader (RedirectHandler lib url code) :=
  fun w r hw => Kept_Redirect lib w r url code hw

/-! ## The mux of `defaultMux`: lemmas -/

theorem defaultMux_exact (p : String) :
    defaultMux.exact p = if "/" = p then some homeHandler else none := by
  by_cases h : "/" = p
  · simp [ServeMux.exact, defaultMux, NewServeMux, ServeMux.HandleFunc, List.find?, h]
  · simp [ServeMux.exact, defaultMux, NewServeMux, ServeMux.HandleFunc, List.find?, h]

theorem defaultMux_shouldRedirect (p : String) : defaultMux.shouldRedirect p = false := by
  have hlen : (defaultMux.exact (p ++ "/")).isSome = true → p.length = 0 := by
    intro h3
    rw [defaultMux_exact] at h3
    by_cases hs : "/" = p ++ "/"
    · have hl := congrArg String.length hs
      rw [String.length_append] at hl
      have h1 : ("/" : String).length = 1 := rfl
      omega
    · simp [hs] at h3
  unfold ServeMux.shouldRedirect
  split_ifs
  all_goals
    first
    | rfl
    | (rename_i h1 h2 h3 h4; exact absurd (hlen h3) h2)

theorem defaultMux_handler_rooted (p : String) (hp : p.data.head? = some '/') :
    defaultMux.handler p = homeHandler := by
  unfold ServeMux.handler ServeMux.find
  rw [defaultMux_exact]
  by_cases h : "/" = p
  · simp [h]
  · have hpre : hasPrefix p "/" = true := by
      cases hd : p.data with
      | nil => rw [hd] at hp; simp at hp
      | cons c cs =>
        rw [hd] at hp
        have hc : c = '/' := by simpa using hp
        simp [hasPrefix, hd, hc]
    have hsuf : hasSuffix "/" "/" = true := by decide
    simp [h, defaultMux, NewServeMux, ServeMux.HandleFunc, List.filter, hpre, hsuf,
      longestPattern]

theorem defaultMux_handler_cases (p : String) :
    defaultMux.handler p = homeHandler ∨ defaultMux.handler p = NotFound := by
  unfold ServeMux.handler ServeMux.find
  rw [defaultMux_exact]
  by_cases h : "/" = p
  · left
    simp [h]
  · by_cases hpre : hasPrefix p "/" = true
    · left
      have hsuf : hasSuffix "/" "/" = true := by decide
      simp [h, defaultMux, NewServeMux, ServeMux.HandleFunc, List.filter, hpre, hsuf,
        longestPattern]
    · right
      simp [h, defaultMux, NewServeMux, ServeMux.HandleFunc, List.filter, hpre, longestPattern]

theorem defaultMux_handler_keeps (p : String) : KeepsHeader (defaultMux.handler p) := by
  rcases defaultMux_handler_cases p with h | h
  · rw [h]; exact homeHandler_keeps
  · rw [h]; exact NotFound_keeps

theorem defaultMux_keeps (lib : NetURL) : KeepsHeader (defaultMux.ServeHTTP lib) := by
  intro w r hw
  unfold ServeMux.ServeHTTP
  simp only []
  split_ifs
  · exact Kept_trans (Kept_HeaderSet w _ _ hw) (Kept_WriteHeader _ _ hw)
  · exact Kept_WriteHeader _ _ hw
  · unfold ServeMux.HandlerFor
    simp only [defaultMux_shouldRedirect]
    split_ifs
    all_goals
      first
      | exact defaultMux_handler_keeps _ w r hw
      | exact RedirectHandler_keeps lib _ _ w r hw

/-- The mux of `defaultMux` hands a request to `homeHandler` when it is not
the request `*`, not a CONNECT request, and its path is in canonical form. -/
theorem defaultMux_ServeHTTP_clean (lib : NetURL) (w : ResponseWriter) (r : Request)
    (huri : r.RequestURI ≠ "*") (hm : r.Method ≠ "CONNECT") (hc : cleanPath r.Path = r.Path) :
    defaultMux.ServeHTTP lib w r = homeHandler w r := by
  have hroot : r.Path.data.head? = some '/' := by
    rw [← hc]
    exact cleanPath_rooted r.Path
  simp [ServeMux.ServeHTTP, huri, ServeMux.HandlerFor, hm, defaultMux_shouldRedirect, hc,
    defaultMux_handler_rooted r.Path hroot]

/-! ## `mapHandler`: lemmas -/

theorem mapHandler_of_hit (lib : NetURL) (urlMap : GoMap) (fb : Handler) (w : ResponseWriter)
    (r : Request) (dest : String) (h : urlMap.get? r.Path = some dest) :
    mapHandler lib urlMap fb w r = fb (Redirect lib w r dest StatusFound) r := by
  simp only [mapHandler, h]

theorem mapHandler_of_miss (lib : NetURL) (urlMap : GoMap) (fb : Handler) (w : ResponseWriter)
    (r : Request) (h : urlMap.get? r.Path = none) :
    mapHandler lib urlMap fb w r = fb w r := by
  simp only [mapHandler, h]

theorem mapHandler_keeps (lib : NetURL) (urlMap : GoMap) (fb : Handler) (hfb : KeepsHeader fb) :
    KeepsHeader (mapHandler lib urlMap fb) := by
  intro w r hw
  cases hget : urlMap.get? r.Path with
  | none =>
    rw [mapHandler_of_miss lib urlMap fb w r hget]
    exact hfb w r hw
  | some dest =>
    rw [mapHandler_of_hit lib urlMap fb w r dest hget]
    have h1 := Kept_Redirect lib w r dest StatusFound hw
    exact Kept_trans h1 (hfb _ r h1.1)

theorem finishRequest_of_wrote (w : ResponseWriter) (hw : w.wroteHeader = true) :
    finishRequest w = w := by
  simp [finishRequest, hw]

/-- What a redirect makes of a response whose header is not written yet: the
header is written with the code, and `Location` is the rewritten target,
escaped. -/
theorem Redirect_unwritten (lib : NetURL) (w : ResponseWriter) (r : Request) (url : String)
    (code : Nat) (hw : w.wroteHeader = false) :
    RedirectedTo code (headerValue (hexEscapeNonASCII (redirectTarget lib r url)))
      (Redirect lib w r url code) := by
  have hne : ("Content-Type" : String) ≠ "Location" := by decide
  have hX : ∀ w2 : ResponseWriter, w2.wroteHeader = false →
      w2.handlerHeader.get? "Location" = some (hexEscapeNonASCII (redirectTarget lib r url)) →
      RedirectedTo code (headerValue (hexEscapeNonASCII (redirectTarget lib r url)))
        (w2.WriteHeader code) := by
    intro w2 h2 hloc
    have hwire := wireHeader_get? w2.handlerHeader "Location" (by decide)
    rw [hloc] at hwire
    simp [RedirectedTo, ResponseWriter.WriteHeader, h2, hwire]
  have hF : ∀ (w3 : ResponseWriter) (s : String),
      RedirectedTo code (headerValue (hexEscapeNonASCII (redirectTarget lib r url))) w3 →
      RedirectedTo code (headerValue (hexEscapeNonASCII (redirectTarget lib r url)))
        (Fprintln w3 s) := by
    intro w3 s h
    have hk : Kept w3 (Fprintln w3 s) := Kept_Write w3 (s ++ "\n") h.1
    exact ⟨hk.1, hk.2.1.trans h.2.1, by rw [hk.2.2]; exact h.2.2⟩
  have hwA : (w.HeaderSet "Location"
      (hexEscapeNonASCII (redirectTarget lib r url))).wroteHeader = false := hw
  have hwB : ((w.HeaderSet "Location" (hexEscapeNonASCII (redirectTarget lib r url))).HeaderSet
      "Content-Type" "text/html; charset=utf-8").wroteHeader = false := hw
  have h1 : (w.HeaderSet "Location"
      (hexEscapeNonASCII (redirectTarget lib r url))).handlerHeader.get? "Location" =
      some (hexEscapeNonASCII (redirectTarget lib r url)) :=
    GoMap.get?_set_self _ _ _
  have h2 : ((w.HeaderSet "Location" (hexEscapeNonASCII (redirectTarget lib r url))).HeaderSet
      "Content-Type" "text/html; charset=utf-8").handlerHeader.get? "Location" =
      some (hexEscapeNonASCII (redirectTarget lib r url)) := by
    show GoMap.get? (GoMap.set _ _ _) _ = _
    rw [GoMap.get?_set_ne _ _ _ _ hne]
    exact h1
  unfold Redirect
  simp only []
  split_ifs
  all_goals
    first
    | exact hF _ _ (hX _ hwB h2)
    | exact hF _ _ (hX _ hwA h1)
    | exact hX _ hwB h2
    | exact hX _ hwA h1

/-- A hit at the head of a chain decides the status and the sent header of
the response, whatever header-keeping handler follows. -/
theorem serve_mapHandler_hit (lib : NetURL) (urlMap : GoMap) (fb : Handler)
    (hfb : KeepsHeader fb) (r : Request) (dest : String)
    (h : urlMap.get? r.Path = some dest) :
    (serve (mapHandler lib urlMap fb) r).status = 302 ∧
      (serve (mapHandler lib urlMap fb) r).sentHeader.get? "Location" =
        some (headerValue (hexEscapeNonASCII (redirectTarget lib r dest))) ∧
      (serve (mapHandler lib urlMap fb) r).status =
        (Redirect lib (newResponse r) r dest StatusFound).status ∧
      (serve (mapHandler lib urlMap fb) r).sentHeader =
        (Redirect lib (newResponse r) r dest StatusFound).sentHeader := by
  have hu := Redirect_unwritten lib (newResponse r) r dest StatusFound rfl
  have hk := hfb (Redirect lib (newResponse r) r dest StatusFound) r hu.1
  have hserve : serve (mapHandler lib urlMap fb) r =
      fb (Redirect lib (newResponse r) r dest StatusFound) r := by
    rw [serve, mapHandler_of_hit lib urlMap fb (newResponse r) r dest h]
    exact finishRequest_of_wrote _ hk.1
  rw [hserve]
  refine ⟨hk.2.1.trans hu.2.1, ?_, hk.2.1, hk.2.2⟩
  rw [hk.2.2]
  exact hu.2.2

/-- The redirect of a GET request on the response the server hands out. -/
theorem Redirect_newResponse_GET (lib : NetURL) (r : Request) (url : String)
    (hm : r.Method = "GET") :
    Redirect lib (newResponse r) r url StatusFound =
      { reqMethod := "GET"
        handlerHeader :=
          [("Location", hexEscapeNonASCII (redirectTarget lib r url)),
            ("Content-Type", "text/html; charset=utf-8")]
        wroteHeader := true
        status := 302
        sentHeader :=
          wireHeader [("Location", hexEscapeNonASCII (redirectTarget lib r url)),
            ("Content-Type", "text/html; charset=utf-8")]
        body := redirectBody (redirectTarget lib r url) StatusFound ++ "\n" } := by
  simp [Redirect, newResponse, hm, GoMap.make, GoMap.get?, GoMap.set, Fprintln,
    ResponseWriter.Write, ResponseWriter.WriteHeader, ResponseWriter.HeaderSet, StatusFound,
    bodyAllowedForStatus]

/-- The redirect of a request that is not a GET request writes no body. -/
theorem Redirect_newResponse_not_GET (lib : NetURL) (r : Request) (url : String)
    (hm : r.Method ≠ "GET") :
    (Redirect lib (newResponse r) r url StatusFound).body = "" := by
  unfold Redirect
  simp only [hm, and_false, if_false]
  split_ifs <;> simp [newResponse, ResponseWriter.WriteHeader, ResponseWriter.HeaderSet]

/-- C1, as the code has it: for every pair of redirect tables and every
request whose path is a key of the outer table, whether or not the inner
table has it too, the response of
`mapHandler(outer, mapHandler(inner, defaultMux))` has status 302 and its
`Location` is the outer table's destination as `http.Redirect` rewrites it;
that is the destination itself when `url.Parse` does not find it to be without
scheme and host and it is made of visible ASCII characters.  The status and the header are the ones the
outer redirect wrote: the later writes of the inner resolver and of the
default handler do not change them. -/
theorem chain_outer_hit (lib : NetURL) (outer inner : GoMap) (r : Request) (dest : String)
    (h : outer.get? r.Path = some dest) :
    (serve (chain lib outer inner) r).status = 302 ∧
    (serve (chain lib outer inner) r).sentHeader.get? "Location" =
      some (headerValue (hexEscapeNonASCII (redirectTarget lib r dest))) ∧
    (lib.isRelative dest = false → isVisibleASCII dest = true →
      (serve (chain lib outer inner) r).sentHeader.get? "Location" = some dest) ∧
    (serve (chain lib outer inner) r).status =
      (Redirect lib (newResponse r) r dest StatusFound).status ∧
    (serve (chain lib outer inner) r).sentHeader =
      (Redirect lib (newResponse r) r dest StatusFound).sentHeader := by
  have hs := serve_mapHandler_hit lib outer (mapHandler lib inner (defaultMux.ServeHTTP lib))
    (mapHandler_keeps lib inner _ (defaultMux_keeps lib)) r dest h
  refine ⟨hs.1, hs.2.1, ?_, hs.2.2.1, hs.2.2.2⟩
  intro hrel hascii
  have hloc := hs.2.1
  rw [redirectTarget_of_not_relative lib r dest hrel,
    hexEscapeNonASCII_of_visible dest hascii, headerValue_of_visible dest hascii] at hloc
  exact hloc

/-- Witness of C1 as amended: `/go` is a key of both tables, with different
absolute destinations. -/
theorem chain_outer_hit_witness :
    (GoMap.get? [("/go", "https://golang.org")] (Request.get "/go").Path =
        some "https://golang.org" ∧
      libA.isRelative "https://golang.org" = false ∧ isVisibleASCII "https://golang.org" = true) ∧
    (serve (chain libA [("/go", "https://golang.org")] [("/go", "https://go.dev")])
      (Request.get "/go")).status = 302 ∧
    (serve (chain libA [("/go", "https://golang.org")] [("/go", "https://go.dev")])
      (Request.get "/go")).sentHeader.get? "Location" = some "https://golang.org" :=
  have h := chain_outer_hit libA [("/go", "https://golang.org")] [("/go", "https://go.dev")]
    (Request.get "/go") "https://golang.org" (by decide)
  ⟨⟨by decide, by decide, by decide⟩, h.1, h.2.2.1 (by decide) (by decide)⟩

/-- Counterexample to C1 as stated: with the outer table sending `/a/b` to the
relative destination `rel`, the `Location` of the response to `/a/b` is
`/a/rel`, not `rel`. -/
theorem chain_outer_relative_counterexample :
    GoMap.get? [("/a/b", "rel")] (Request.get "/a/b").Path = some "rel" ∧
    (serve (chain libA [("/a/b", "rel")] []) (Request.get "/a/b")).sentHeader.get? "Location" =
      some "/a/rel" ∧
    (serve (chain libA [("/a/b", "rel")] []) (Request.get "/a/b")).sentHeader.get? "Location" ≠
      some "rel" := by
  decide

/-- C2, as the code has it: for every pair of redirect tables and every
request whose path is a key of the inner table and not of the outer one, the
response of `mapHandler(outer, mapHandler(inner, defaultMux))` has status 302
and its `Location` is the inner table's destination as `http.Redirect`
rewrites it; that is the destination itself when `url.Parse` does not find it
to be without scheme and host and it is made of visible ASCII characters. -/
theorem chain_inner_hit (lib : NetURL) (outer inner : GoMap) (r : Request) (dest : String)
    (ho : outer.get? r.Path = none) (hi : inner.get? r.Path = some dest) :
    (serve (chain lib outer inner) r).status = 302 ∧
    (serve (chain lib outer inner) r).sentHeader.get? "Location" =
      some (headerValue (hexEscapeNonASCII (redirectTarget lib r dest))) ∧
    (lib.isRelative dest = false → isVisibleASCII dest = true →
      (serve (chain lib outer inner) r).sentHeader.get? "Location" = some dest) := by
  have hs := serve_mapHandler_hit lib inner (defaultMux.ServeHTTP lib) (defaultMux_keeps lib)
    r dest hi
  have hserve : serve (chain lib outer inner) r =
      serve (mapHandler lib inner (defaultMux.ServeHTTP lib)) r := by
    rw [serve, serve, chain, mapHandler_of_miss lib outer _ (newResponse r) r ho]
  rw [hserve]
  refine ⟨hs.1, hs.2.1, ?_⟩
  intro hrel hascii
  have hloc := hs.2.1
  rw [redirectTarget_of_not_relative lib r dest hrel,
    hexEscapeNonASCII_of_visible dest hascii, headerValue_of_visible dest hascii] at hloc
  exact hloc

/-- Witness of C2 as amended: `/yaml` is a key of the inner table only, with
an absolute destination. -/
theorem chain_inner_hit_witness :
    (GoMap.get? [("/go", "https://golang.org")] (Request.get "/yaml").Path = none ∧
      GoMap.get? [("/yaml", "https://yaml.org")] (Request.get "/yaml").Path =
        some "https://yaml.org" ∧
      libA.isRelative "https://yaml.org" = false ∧ isVisibleASCII "https://yaml.org" = true) ∧
    (serve (chain libA [("/go", "https://golang.org")] [("/yaml", "https://yaml.org")])
      (Request.get "/yaml")).status = 302 ∧
    (serve (chain libA [("/go", "https://golang.org")] [("/yaml", "https://yaml.org")])
      (Request.get "/yaml")).sentHeader.get? "Location" = some "https://yaml.org" :=
  have h := chain_inner_hit libA [("/go", "https://golang.org")]
    [("/yaml", "https://yaml.org")] (Request.get "/yaml") "https://yaml.org" (by decide)
    (by decide)
  ⟨⟨by decide, by decide, by decide, by decide⟩, h.1, h.2.2 (by decide) (by decide)⟩

/-- Counterexample to C2 as stated: with the inner table sending `/a/b` to the
empty destination and the outer table empty, the `Location` of the response
to `/a/b` is `/a/`, not the empty string. -/
theorem chain_inner_relative_counterexample :
    (GoMap.get? [] (Request.get "/a/b").Path = none ∧
      GoMap.get? [("/a/b", "")] (Request.get "/a/b").Path = some "") ∧
    (serve (chain libA [] [("/a/b", "")]) (Request.get "/a/b")).sentHeader.get? "Location" =
      some "/a/" ∧
    (serve (chain libA [] [("/a/b", "")]) (Request.get "/a/b")).sentHeader.get? "Location" ≠
      some "" := by
  decide

/-- C5, as the code has it: for every redirect table, fallback handler and
request whose path is a key of the table, the handler of `mapHandler` first
calls `http.Redirect` with status 302 and the mapped destination and then
still calls the fallback handler, once, with the same request, on the
response the redirect left.  The redirect writes the header, with status 302
and the rewritten destination in `Location`, for every request, and its HTML
body for a GET request only.  With the default handler, a GET request that is
not `*` and whose path is in the canonical form of the mux gets the welcome
line after the redirect's body. -/
theorem mapHandler_hit_then_fallback (lib : NetURL) (urlMap : GoMap) (fb : Handler)
    (r : Request) (dest : String) (h : urlMap.get? r.Path = some dest) :
    (∀ w, mapHandler lib urlMap fb w r = fb (Redirect lib w r dest StatusFound) r) ∧
    serve (mapHandler lib urlMap fb) r =
      finishRequest (fb (Redirect lib (newResponse r) r dest StatusFound) r) ∧
    ((Redirect lib (newResponse r) r dest StatusFound).wroteHeader = true ∧
      (Redirect lib (newResponse r) r dest StatusFound).status = 302 ∧
      (Redirect lib (newResponse r) r dest StatusFound).sentHeader.get? "Location" =
        some (headerValue (hexEscapeNonASCII (redirectTarget lib r dest)))) ∧
    (r.Method = "GET" →
      (Redirect lib (newResponse r) r dest StatusFound).body =
        redirectBody (redirectTarget lib r dest) StatusFound ++ "\n") ∧
    (r.Method ≠ "GET" → (Redirect lib (newResponse r) r dest StatusFound).body = "") ∧
    ((serve (mapHandler lib urlMap (defaultMux.ServeHTTP lib)) r).status = 302 ∧
      (serve (mapHandler lib urlMap (defaultMux.ServeHTTP lib)) r).sentHeader.get? "Location" =
        some (headerValue (hexEscapeNonASCII (redirectTarget lib r dest)))) ∧
    (r.Method = "GET" → r.RequestURI ≠ "*" → cleanPath r.Path = r.Path →
      (serve (mapHandler lib urlMap (defaultMux.ServeHTTP lib)) r).body =
        redirectBody (redirectTarget lib r dest) StatusFound ++ "\n" ++ "Welcome!\n") := by
  have hserve : ∀ fb' : Handler, serve (mapHandler lib urlMap fb') r =
      finishRequest (fb' (Redirect lib (newResponse r) r dest StatusFound) r) := by
    intro fb'
    rw [serve, mapHandler_of_hit lib urlMap fb' (newResponse r) r dest h]
  have hs := serve_mapHandler_hit lib urlMap (defaultMux.ServeHTTP lib) (defaultMux_keeps lib)
    r dest h
  refine ⟨fun w => mapHandler_of_hit lib urlMap fb w r dest h, hserve fb,
    Redirect_unwritten lib (newResponse r) r dest StatusFound rfl, ?_, ?_, ⟨hs.1, hs.2.1⟩, ?_⟩
  · intro hm
    rw [Redirect_newResponse_GET lib r dest hm]
  · exact Redirect_newResponse_not_GET lib r dest
  · intro hm huri hc
    have hcon : r.Method ≠ "CONNECT" := by
      rw [hm]
      decide
    rw [hserve, defaultMux_ServeHTTP_clean lib _ r huri hcon hc,
      Redirect_newResponse_GET lib r dest hm]
    simp [homeHandler, Fprintln, ResponseWriter.Write, finishRequest, bodyAllowedForStatus]

/-- Witness of C5 as amended: a GET request that hits on `/go` before the
default handler; the body holds the redirect's HTML and then the welcome
line. -/
theorem mapHandler_hit_then_fallback_witness :
    (GoMap.get? [("/go", "https://golang.org")] (Request.get "/go").Path =
        some "https://golang.org" ∧
      (Request.get "/go").Method = "GET" ∧ (Request.get "/go").RequestURI ≠ "*" ∧
      cleanPath (Request.get "/go").Path = (Request.get "/go").Path) ∧
    (serve (mapHandler libA [("/go", "https://golang.org")] (defaultMux.ServeHTTP libA))
      (Request.get "/go")).status = 302 ∧
    (serve (mapHandler libA [("/go", "https://golang.org")] (defaultMux.ServeHTTP libA))
      (Request.get "/go")).body =
        "<a href=\"https://golang.org\">Found</a>.\n\nWelcome!\n" := by
  have h := mapHandler_hit_then_fallback libA [("/go", "https://golang.org")]
    (defaultMux.ServeHTTP libA) (Request.get "/go") "https://golang.org" (by decide)
  refine ⟨⟨by decide, by decide, by decide, by decide⟩, h.2.2.2.2.2.1.1, ?_⟩
  rw [h.2.2.2.2.2.2 (by decide) (by decide) (by decide)]
  decide

/-- Counterexample to C5 as stated, at two requests whose path is a key of the
table, in front of the default handler: a POST request for `/go` gets the
redirect's header but no redirect body, only the welcome line; a GET request
for `//go` gets the redirect's body but no welcome line after it. -/
theorem mapHandler_hit_body_counterexample :
    (GoMap.get? [("/go", "https://golang.org")] "/go" = some "https://golang.org" ∧
      (serve (mapHandler libA [("/go", "https://golang.org")] (defaultMux.ServeHTTP libA))
        { Method := "POST", Path := "/go", RawQuery := "", RequestURI := "/go",
          ProtoMajor := 1, ProtoMinor := 1 }).status = 302 ∧
      (serve (mapHandler libA [("/go", "https://golang.org")] (defaultMux.ServeHTTP libA))
        { Method := "POST", Path := "/go", RawQuery := "", RequestURI := "/go",
          ProtoMajor := 1, ProtoMinor := 1 }).body = "Welcome!\n") ∧
    (GoMap.get? [("//go", "https://golang.org")] (Request.get "//go").Path =
        some "https://golang.org" ∧
      (serve (mapHandler libA [("//go", "https://golang.org")] (defaultMux.ServeHTTP libA))
        (Request.get "//go")).body = "<a href=\"https://golang.org\">Found</a>.\n\n") := by
  decide

/-- C6: for every redirect table, fallback handler, request and initial
response state, when the request path is not a key of the table the handler
of `mapHandler` is the fallback handler on the same request and response: one
call of the fallback, and no write of its own. -/
theorem mapHandler_miss_eq_fallback (lib : NetURL) (urlMap : GoMap) (fb : Handler)
    (w : ResponseWriter) (r : Request) (h : urlMap.get? r.Path = none) :
    mapHandler lib urlMap fb w r = fb w r :=
  mapHandler_of_miss lib urlMap fb w r h

/-- Witness of C6: a miss on `/missing` in front of the default handler, on a
response that already carries a header line. -/
theorem mapHandler_miss_eq_fallback_witness :
    GoMap.get? [("/go", "https://golang.org")] (Request.get "/missing").Path = none ∧
    mapHandler libA [("/go", "https://golang.org")] (defaultMux.ServeHTTP libA)
        ((newResponse (Request.get "/missing")).HeaderSet "X-Trace" "1")
        (Request.get "/missing") =
      defaultMux.ServeHTTP libA ((newResponse (Request.get "/missing")).HeaderSet "X-Trace" "1")
        (Request.get "/missing") :=
  ⟨by decide,
    mapHandler_miss_eq_fallback libA [("/go", "https://golang.org")]
      (defaultMux.ServeHTTP libA)
      ((newResponse (Request.get "/missing")).HeaderSet "X-Trace" "1")
      (Request.get "/missing") (by decide)⟩

/-! ## Decoding and start-up: theorems -/

/-- C9: for every byte buffer and fallback handler, `mapJsonHandler`, and
likewise `mapYamlHandler`, returns an error exactly when the decoder fails on
the buffer; the error is then the decoder's error as it is, and the handler
is nil; when the decoder succeeds the error is nil and the handler is
`mapHandler` of the table built from the decoded records and of the given
fallback. -/
theorem mapHandlers_decode_error (lib : NetURL) (jsonUnmarshal : Unmarshal jsonRedirectURL)
    (yamlUnmarshal : Unmarshal yamlRedirectURL) (data : Bytes) (fb : Handler) :
    (((mapJsonHandler lib jsonUnmarshal data fb).2.isSome = true ↔
        (jsonUnmarshal data).2.isSome = true) ∧
      (∀ e, (jsonUnmarshal data).2 = some e →
        mapJsonHandler lib jsonUnmarshal data fb = (none, some e)) ∧
      (∀ es, jsonUnmarshal data = (es, none) →
        mapJsonHandler lib jsonUnmarshal data fb =
          (some (mapHandler lib (mapJsonUrls es) fb), none))) ∧
    (((mapYamlHandler lib yamlUnmarshal data fb).2.isSome = true ↔
        (yamlUnmarshal data).2.isSome = true) ∧
      (∀ e, (yamlUnmarshal data).2 = some e →
        mapYamlHandler lib yamlUnmarshal data fb = (none, some e)) ∧
      (∀ es, yamlUnmarshal data = (es, none) →
        mapYamlHandler lib yamlUnmarshal data fb =
          (some (mapHandler lib (mapYamlUrls es) fb), none))) := by
  constructor
  · rcases hj : jsonUnmarshal data with ⟨es, _ | e⟩
    · simp [mapJsonHandler, parseJson, hj]
    · simp [mapJsonHandler, parseJson, hj]
  · rcases hy : yamlUnmarshal data with ⟨es, _ | e⟩
    · simp [mapYamlHandler, parseYaml, hy]
    · simp [mapYamlHandler, parseYaml, hy]

/-- Witness of C9: a buffer on which the JSON decoder fails and one on which
it succeeds, and the same for the YAML decoder. -/
theorem mapHandlers_decode_error_witness :
    ((jsonUnmarshalA []).2 = some "unexpected end of JSON input" ∧
      mapJsonHandler libA jsonUnmarshalA [] homeHandler =
        (none, some "unexpected end of JSON input")) ∧
    (jsonUnmarshalA jsonFileA =
        ([{ Path := "/a", URL := "https://json.example" }], none) ∧
      mapJsonHandler libA jsonUnmarshalA jsonFileA homeHandler =
        (some (mapHandler libA (mapJsonUrls [{ Path := "/a", URL := "https://json.example" }])
          homeHandler), none)) ∧
    ((yamlUnmarshalA [9]).2 = some "yaml: found character that cannot start any token" ∧
      mapYamlHandler libA yamlUnmarshalA [9] homeHandler =
        (none, some "yaml: found character that cannot start any token")) ∧
    (yamlUnmarshalA yamlFileA =
        ([{ Path := "/a", URL := "https://yaml.example" }], none) ∧
      mapYamlHandler libA yamlUnmarshalA yamlFileA homeHandler =
        (some (mapHandler libA (mapYamlUrls [{ Path := "/a", URL := "https://yaml.example" }])
          homeHandler), none)) :=
  ⟨⟨by decide,
      (mapHandlers_decode_error libA jsonUnmarshalA yamlUnmarshalA [] homeHandler).1.2.1 _
        (by decide)⟩,
    ⟨by decide,
      (mapHandlers_decode_error libA jsonUnmarshalA yamlUnmarshalA jsonFileA homeHandler).1.2.2 _
        (by decide)⟩,
    ⟨by decide,
      (mapHandlers_decode_error libA jsonUnmarshalA yamlUnmarshalA [9] homeHandler).2.2.1 _
        (by decide)⟩,
    ⟨by decide,
      (mapHandlers_decode_error libA jsonUnmarshalA yamlUnmarshalA yamlFileA homeHandler).2.2.2 _
        (by decide)⟩⟩

/-- C4, as the code has it: the handler that `main` registers is the YAML
resolver (source B) wrapping the JSON resolver (source A) wrapping the default
handler; so for every JSON table and YAML table and every request path that
is a key of both with different destinations, the response is a 302 whose
`Location` is the YAML table's destination as `http.Redirect` rewrites it;
when `url.Parse` does not find that destination to be without scheme and host
and it is made of visible ASCII characters, `Location` is the YAML destination
itself, not the JSON
table's. -/
theorem main_registers_yaml_over_json (lib : NetURL) (fs : FileSystem)
    (jsonUnmarshal : Unmarshal jsonRedirectURL) (yamlUnmarshal : Unmarshal yamlRedirectURL)
    (yamlFileName jsonFileName : String) (jsonFile yamlFile : Nat) (jsonData yamlData : Bytes)
    (js : List jsonRedirectURL) (ys : List yamlRedirectURL) (r : Request) (dj dy : String)
    (hjo : fs.Open jsonFileName = .ok jsonFile) (hjr : fs.ReadAll jsonFile = .ok jsonData)
    (hju : jsonUnmarshal jsonData = (js, none))
    (hyo : fs.Open yamlFileName = .ok yamlFile) (hyr : fs.ReadAll yamlFile = .ok yamlData)
    (hyu : yamlUnmarshal yamlData = (ys, none))
    (_hj : (mapJsonUrls js).get? r.Path = some dj)
    (hy : (mapYamlUrls ys).get? r.Path = some dy) (hne : dj ≠ dy) :
    main lib fs jsonUnmarshal yamlUnmarshal yamlFileName jsonFileName =
      .ok (mapHandler lib (mapYamlUrls ys)
        (mapHandler lib (mapJsonUrls js) (defaultMux.ServeHTTP lib))) ∧
    mainResponse lib fs jsonUnmarshal yamlUnmarshal yamlFileName jsonFileName r =
      some (serve (chain lib (mapYamlUrls ys) (mapJsonUrls js)) r) ∧
    (serve (chain lib (mapYamlUrls ys) (mapJsonUrls js)) r).status = 302 ∧
    (serve (chain lib (mapYamlUrls ys) (mapJsonUrls js)) r).sentHeader.get? "Location" =
      some (headerValue (hexEscapeNonASCII (redirectTarget lib r dy))) ∧
    (lib.isRelative dy = false → isVisibleASCII dy = true →
      (serve (chain lib (mapYamlUrls ys) (mapJsonUrls js)) r).sentHeader.get? "Location" =
          some dy ∧
        (serve (chain lib (mapYamlUrls ys) (mapJsonUrls js)) r).sentHeader.get? "Location" ≠
          some dj) := by
  have hmain : main lib fs jsonUnmarshal yamlUnmarshal yamlFileName jsonFileName =
      .ok (mapHandler lib (mapYamlUrls ys)
        (mapHandler lib (mapJsonUrls js) (defaultMux.ServeHTTP lib))) := by
    simp [main, hjo, hjr, hyo, hyr, mapJsonHandler, parseJson, hju, mapYamlHandler, parseYaml,
      hyu]
  have hs := serve_mapHandler_hit lib (mapYamlUrls ys)
    (mapHandler lib (mapJsonUrls js) (defaultMux.ServeHTTP lib))
    (mapHandler_keeps lib (mapJsonUrls js) _ (defaultMux_keeps lib)) r dy hy
  refine ⟨hmain, ?_, hs.1, hs.2.1, ?_⟩
  · simp [mainResponse, hmain, chain]
  · intro hrel hascii
    have hloc : (serve (chain lib (mapYamlUrls ys) (mapJsonUrls js)) r).sentHeader.get?
        "Location" = some dy := by
      have hloc' := hs.2.1
      rw [redirectTarget_of_not_relative lib r dy hrel,
        hexEscapeNonASCII_of_visible dy hascii, headerValue_of_visible dy hascii] at hloc'
      exact hloc'
    refine ⟨hloc, ?_⟩
    rw [hloc]
    intro hEq
    exact hne (Option.some.inj hEq).symm

/-- Witness of C4 as amended: both files decode to a table with the key `/a`,
to different absolute destinations. -/
theorem main_registers_yaml_over_json_witness :
    ((mapJsonUrls [{ Path := "/a", URL := "https://json.example" }]).get?
        (Request.get "/a").Path = some "https://json.example" ∧
      (mapYamlUrls [{ Path := "/a", URL := "https://yaml.example" }]).get?
        (Request.get "/a").Path = some "https://yaml.example" ∧
      libA.isRelative "https://yaml.example" = false ∧
      isVisibleASCII "https://yaml.example" = true) ∧
    (serve (chain libA (mapYamlUrls [{ Path := "/a", URL := "https://yaml.example" }])
      (mapJsonUrls [{ Path := "/a", URL := "https://json.example" }]))
        (Request.get "/a")).status = 302 ∧
    (serve (chain libA (mapYamlUrls [{ Path := "/a", URL := "https://yaml.example" }])
      (mapJsonUrls [{ Path := "/a", URL := "https://json.example" }]))
        (Request.get "/a")).sentHeader.get? "Location" = some "https://yaml.example" :=
  have h := main_registers_yaml_over_json libA twoFiles jsonUnmarshalA yamlUnmarshalA
    "yaml-urls.yaml" "json-urls.json" 3 4 jsonFileA yamlFileA
    [{ Path := "/a", URL := "https://json.example" }]
    [{ Path := "/a", URL := "https://yaml.example" }] (Request.get "/a")
    "https://json.example" "https://yaml.example" rfl rfl (by decide)
    rfl rfl (by decide) (by decide) (by decide) (by decide)
  ⟨⟨by decide, by decide, by decide, by decide⟩, h.2.2.1,
    (h.2.2.2.2 (by decide) (by decide)).1⟩

/-- Counterexample to C4 as stated: the JSON file sends `/a` to
`https://json.example` and the YAML file sends `/a` to
`https://yaml.example`; the registered handler answers `/a` with a 302 to the
YAML destination, not to the JSON one. -/
theorem main_json_first_counterexample :
    ((mapJsonUrls (jsonUnmarshalA jsonFileA).1).get? "/a" = some "https://json.example" ∧
      (mapYamlUrls (yamlUnmarshalA yamlFileA).1).get? "/a" = some "https://yaml.example") ∧
    (mainResponse libA twoFiles jsonUnmarshalA yamlUnmarshalA "yaml-urls.yaml" "json-urls.json"
        (Request.get "/a")).map (fun w => (w.status, w.sentHeader.get? "Location")) =
      some (302, some "https://yaml.example") ∧
    (mainResponse libA twoFiles jsonUnmarshalA yamlUnmarshalA "yaml-urls.yaml" "json-urls.json"
        (Request.get "/a")).map (fun w => (w.status, w.sentHeader.get? "Location")) ≠
      some (302, some "https://json.example") := by
  decide

end UrlShortener
